import Mathlib

/-!
Formal model of the mastercam-pdm backend core services.

The definitions below are shallow embeddings of the Python sources:

* `backend/app/services/lock_service.py`
  (`ImprovedFileLockManager`, `MetadataManager`), and
* `backend/app/services/git_service.py`
  (`GitRepository`).

Filesystem directories holding one record per file are modelled as
association lists from the file name (a `String`) to the file's content.
A stored checkout record is `Option LockData`: `some d` is a record whose
JSON parses to `d`, `none` is a corrupted (unparseable) record.
Serialisation itself (JSON) is abstracted by an injective encode with a
partial decode.  Machine-level effects (actual byte I/O, process kills)
are represented by their visible effect on this state.
-/

set_option autoImplicit false

namespace PDM

/-! ## Association-list primitives (files in a directory / git trees) -/

/-- First value stored under key `k` (a directory lookup / `Path.exists`). -/
def rlookup {β : Type} (k : String) : List (String × β) → Option β
  | [] => none
  | (a, v) :: t => if a = k then some v else rlookup k t

/-- Remove every entry stored under key `k` (file deletion / `unlink`). -/
def rerase {β : Type} (k : String) : List (String × β) → List (String × β)
  | [] => []
  | (a, v) :: t => if a = k then rerase k t else (a, v) :: rerase k t

/-- Overwriting write of value `v` under key `k` (`open(.., 'w')` semantics:
it replaces whatever was stored there before). -/
def rinsert {β : Type} (k : String) (v : β) (l : List (String × β)) :
    List (String × β) :=
  (k, v) :: rerase k l

/-! ## Revision arithmetic (`GitRepository._increment_revision`) -/

/-- Numeric value of a list of decimal digits. -/
def digitsToNat (cs : List Char) : Nat :=
  cs.foldl (fun a c => a * 10 + (c.toNat - 48)) 0

/-- Python `str.isdigit` restricted to ASCII: non-empty and all digits. -/
def isDigitStr (s : String) : Bool :=
  !s.isEmpty && s.toList.all Char.isDigit

/-- `str.split(sep)` for a single-character separator, on char lists. -/
def splitOnChar (c : Char) : List Char → List (List Char)
  | [] => [[]]
  | x :: xs =>
    let r := splitOnChar c xs
    if x = c then [] :: r
    else
      match r with
      | [] => [[x]]
      | h :: t => (x :: h) :: t

/-- Python `int(str)`: optional surrounding whitespace, optional sign,
then at least one decimal digit; anything else raises (`none`). -/
def pyIntChars (cs : List Char) : Option Int :=
  let t := ((cs.dropWhile Char.isWhitespace).reverse.dropWhile
    Char.isWhitespace).reverse
  match t with
  | [] => none
  | '-' :: ds =>
    if !ds.isEmpty && ds.all Char.isDigit then some (-(digitsToNat ds : Int))
    else none
  | '+' :: ds =>
    if !ds.isEmpty && ds.all Char.isDigit then some (digitsToNat ds : Int)
    else none
  | ds =>
    if ds.all Char.isDigit then some (digitsToNat ds : Int) else none

/-- The parsing half of `_increment_revision`: an empty `current_rev` is
replaced by `"0.0"`, the string is split on `'.'`, `int()` is applied to the
first component and (when present) the second; any `int()` failure resets
both to `(0, 0)`. -/
def parse_rev (current_rev : String) : Int × Int :=
  let cr := if current_rev.isEmpty then "0.0" else current_rev
  let parts := splitOnChar '.' cr.toList
  match parts with
  | [] => (0, 0)
  | [p0] =>
    match pyIntChars p0 with
    | some mj => (mj, 0)
    | none => (0, 0)
  | p0 :: p1 :: _ =>
    match pyIntChars p0, pyIntChars p1 with
    | some mj, some mn => (mj, mn)
    | _, _ => (0, 0)

/-- `GitRepository._increment_revision(current_rev, rev_type, new_major_str)`. -/
def increment_revision (current_rev rev_type : String)
    (new_major_str : Option String) : String :=
  let mm := parse_rev current_rev
  if rev_type = "major" then
    match new_major_str with
    | some s =>
      if isDigitStr s then toString (digitsToNat s.toList) ++ ".0"
      else toString (mm.1 + 1) ++ ".0"
    | none => toString (mm.1 + 1) ++ ".0"
  else
    toString mm.1 ++ "." ++ toString (mm.2 + 1)

/-! ## Checkout registry (`MetadataManager`) -/

/-- Parsed content of a checkout record
(`{"file": .., "user": .., "timestamp": ..}`). -/
structure LockData where
  file : String
  user : String
  ts : Nat
deriving DecidableEq

/-- The `.locks` directory: file name to stored record.  `some d` is a
record whose JSON parses to `d`; `none` is a corrupted record. -/
abbrev Registry := List (String × Option LockData)

/-- `MetadataManager._get_lock_file_path`: replace the path separator and
every dot by an underscore, append the `.lock` suffix. -/
def sanitize (s : String) : String :=
  String.mk (s.toList.map fun c => if c = '/' || c = '.' then '_' else c)

/-- Name of the lock file that keys the checkout record for `file_path`. -/
def lock_key (file_path : String) : String :=
  sanitize file_path ++ ".lock"

/-- `MetadataManager.create_lock(file_path, user, force)`: if the lock file
exists and `force` is false, return `None` and change nothing; otherwise
write (overwriting) the record and return the lock-file path. -/
def create_lock (st : Registry) (file_path user : String) (ts : Nat)
    (force : Bool) : Option String × Registry :=
  let key := lock_key file_path
  if (rlookup key st).isSome && !force then (none, st)
  else (some key, rinsert key (some ⟨file_path, user, ts⟩) st)

/-- `MetadataManager.release_lock`: `unlink(missing_ok=True)`. -/
def release_lock (st : Registry) (file_path : String) : Registry :=
  rerase (lock_key file_path) st

/-- `MetadataManager.get_lock_info`: return the parsed record, or `None`;
a record that exists but fails to parse is deleted and reported `None`. -/
def get_lock_info (st : Registry) (file_path : String) :
    Option LockData × Registry :=
  let key := lock_key file_path
  match rlookup key st with
  | none => (none, st)
  | some none => (none, rerase key st)
  | some (some d) => (some d, st)

/-- The existence test `lock_file.exists() and not force` performed by
`create_lock` before it writes — the first of its two steps, reading the
shared directory state.  Returns `true` when the call may proceed. -/
def create_check (st : Registry) (file_path : String) (force : Bool) : Bool :=
  !((rlookup (lock_key file_path) st).isSome && !force)

/-- The write step of `create_lock`: `lock_file.write_text(..)`, an
overwriting (mode `'w'`) write, not an exclusive create. -/
def create_write (st : Registry) (file_path user : String) (ts : Nat) :
    Registry :=
  rinsert (lock_key file_path) (some ⟨file_path, user, ts⟩) st

/-! ## Repository mutex (`ImprovedFileLockManager`) -/

/-- Content of the repository-lock marker file written on acquisition. -/
structure MarkerInfo where
  pid : Nat
  mtime : Nat
deriving DecidableEq

/-- Host environment observed by the mutex: the set of live process ids,
the current time (seconds), and the acquiring process's own pid. -/
structure World where
  livePids : List Nat
  now : Nat
  myPid : Nat

/-- `ImprovedFileLockManager._is_stale_lock`: a present marker is stale when
its age exceeds `max_lock_age_seconds = 300`, or when the recorded pid no
longer exists on the host. -/
def is_stale_lock (w : World) (marker : Option MarkerInfo) : Bool :=
  match marker with
  | none => false
  | some m => decide (w.now - m.mtime > 300) || !(w.livePids.contains m.pid)

/-- `ImprovedFileLockManager.__enter__`, fuel-indexed: each iteration tries
the exclusive create; on contention a stale marker is force-broken (the
marker file deleted) and the loop retries immediately, otherwise the loop
sleeps 0.2s and retries.  Returns the written marker together with the
number of sleeps taken, or `none` when the fuel (the 15s timeout budget)
runs out. -/
def acquire_loop (w : World) :
    Nat → Option MarkerInfo → Nat → Option (MarkerInfo × Nat)
  | 0, _, _ => none
  | fuel + 1, marker, sleeps =>
    match marker with
    | none => some (⟨w.myPid, w.now⟩, sleeps)
    | some m =>
      if is_stale_lock w (some m) then acquire_loop w fuel none sleeps
      else acquire_loop w fuel (some m) (sleeps + 1)

/-! ## Versioned store (`GitRepository`) -/

/-- A git commit: message, author and the snapshot (tree) it records. -/
structure GCommit where
  message : String
  author : String
  tree : List (String × String)
deriving DecidableEq

/-- The visible state of the working copy and its remote: files on disk,
the staged index, the local branch history (newest first) and the remote
branch history (newest first). -/
structure GitState where
  workdir : List (String × String)
  index : List (String × String)
  headCommits : List GCommit
  remoteCommits : List GCommit
deriving DecidableEq

/-- Snapshot recorded by the local `HEAD` commit. -/
def headTreeOf (s : GitState) : List (String × String) :=
  match s.headCommits with
  | [] => []
  | c :: _ => c.tree

/-- Snapshot recorded by the remote's tip commit. -/
def remoteTreeOf (s : GitState) : List (String × String) :=
  match s.remoteCommits with
  | [] => []
  | c :: _ => c.tree

/-- Extensional equality of two snapshots viewed as maps. -/
def mapBeq (a b : List (String × String)) : Bool :=
  a.all (fun kv => decide (rlookup kv.1 b = rlookup kv.1 a)) &&
    b.all (fun kv => decide (rlookup kv.1 a = rlookup kv.1 b))

/-- `repo.is_dirty(untracked_files=True)`: the staged index differs from
`HEAD`, or the working tree differs from the index (which covers unstaged
modifications, unstaged deletions and untracked files). -/
def isDirty (s : GitState) : Bool :=
  !mapBeq s.index (headTreeOf s) || !mapBeq s.workdir s.index

/-- Failure injection for the three external steps of the publish
transaction: `false` means the step raises when executed. -/
structure StepFlags where
  stageOk : Bool
  commitOk : Bool
  pushOk : Bool
deriving DecidableEq

/-- All steps succeed. -/
def allOk : StepFlags := ⟨true, true, true⟩

/-- `GitRepository.pull_latest_changes`: `origin.fetch()` followed by
`git reset --hard origin/<branch>` — working tree, index and local history
all become the remote's last known state. -/
def pull_latest_changes (s : GitState) : GitState :=
  { workdir := remoteTreeOf s
    index := remoteTreeOf s
    headCommits := s.remoteCommits
    remoteCommits := s.remoteCommits }

/-- The staging step of `commit_and_push`: paths that exist on disk are
added (`index.add`), paths that do not are removed (`index.remove`);
returns the resulting index. -/
def stage_paths (paths : List String) (s : GitState) :
    List (String × String) :=
  let to_add := paths.filter fun p => (rlookup p s.workdir).isSome
  let to_remove := paths.filter fun p => (rlookup p s.workdir).isNone
  let idx1 := to_add.foldl
    (fun idx p => rinsert p ((rlookup p s.workdir).getD "") idx) s.index
  to_remove.foldl (fun idx p => rerase p idx) idx1

/-- `GitRepository.commit_and_push(file_paths, message, author_name)`:
stage, skip when not dirty, otherwise commit the index and push.  Any
raising step is caught; the handler runs `pull_latest_changes` and the
call returns `False`. -/
def commit_and_push (fl : StepFlags) (paths : List String)
    (message author : String) (s : GitState) : Bool × GitState :=
  if !fl.stageOk then (false, pull_latest_changes s)
  else
    let idx := stage_paths paths s
    let s1 := { s with index := idx }
    if !isDirty s1 then (true, s1)
    else if !fl.commitOk then (false, pull_latest_changes s)
    else
      let s2 := { s1 with
        headCommits := ⟨message, author, idx⟩ :: s1.headCommits }
      if !fl.pushOk then (false, pull_latest_changes s)
      else (true, { s2 with remoteCommits := s2.headCommits })

/-! ## LFS pointer heuristic (`GitRepository.is_lfs_pointer`) -/

/-- A file as seen by `stat` and `read_text`: its byte size, and its
decoded text (`none` when `read_text` raises). -/
structure FsFile where
  size : Nat
  text : Option String
deriving DecidableEq

/-- Working-copy files for the pointer heuristic. -/
structure RepoFs where
  files : List (String × FsFile)
deriving DecidableEq

/-- The signature an LFS pointer file starts with. -/
def lfsSig : String := "version https://git-lfs"

/-- Does `s` start with `pat`? (char-list model of `str.startswith`). -/
def listStarts : List Char → List Char → Bool
  | _, [] => true
  | [], _ :: _ => false
  | a :: as, b :: bs => a = b && listStarts as bs

/-- `GitRepository.is_lfs_pointer(file_path)`: the file exists, its size is
at most 200 bytes, its text decodes, and the text starts with the pointer
signature; every failure path yields `false`, never an exception. -/
def is_lfs_pointer (fs : RepoFs) (file_path : String) : Bool :=
  match rlookup file_path fs.files with
  | none => false
  | some f =>
    if f.size > 200 then false
    else
      match f.text with
      | none => false
      | some t => listStarts t.toList lfsSig.toList

/-! ## Check-in orchestration (`GitRepository.checkin_file`) -/

/-- Injective encoding of the side-car metadata JSON carrying a revision. -/
def metaEncode (rev : String) : String := "META_REVISION:" ++ rev

/-- Partial decode of the side-car metadata: the recorded revision when the
content parses, `none` when it does not (JSON decode error). -/
def metaDecode (content : String) : Option String :=
  if listStarts content.toList (metaEncode "").toList then
    some (String.mk (content.toList.drop 14))
  else none

/-- `GitRepository.save_file`: overwriting write into the working copy. -/
def save_file (s : GitState) (file_path content : String) : GitState :=
  { s with workdir := rinsert file_path content s.workdir }

/-- `GitRepository.checkin_file`: write the new content, load the side-car
metadata revision (defaulting to `"0.0"` when the file is absent or does
not parse), bump it with `_increment_revision`, write the metadata back,
and publish both files with a `REV <new>: `-prefixed message. -/
def checkin_file (fl : StepFlags) (s : GitState)
    (file_path file_content commit_message rev_type author_name : String)
    (new_major_rev : Option String) : Bool × GitState :=
  let s1 := save_file s file_path file_content
  let metaPath := file_path ++ ".meta.json"
  let current_rev :=
    match rlookup metaPath s1.workdir with
    | none => "0.0"
    | some raw =>
      match metaDecode raw with
      | none => "0.0"
      | some r => r
  let new_rev := increment_revision current_rev rev_type new_major_rev
  let s2 := { s1 with workdir := rinsert metaPath (metaEncode new_rev) s1.workdir }
  let fmsg := "REV " ++ new_rev ++ ": " ++ commit_message
  commit_and_push fl [file_path, metaPath] fmsg author_name s2

/-! ## Helper lemmas -/

theorem rlookup_rerase_self {β : Type} (k : String) (l : List (String × β)) :
    rlookup k (rerase k l) = none := by
  induction l with
  | nil => rfl
  | cons hd t ih =>
    obtain ⟨a, v⟩ := hd
    by_cases hak : a = k
    · simp [rerase, hak, ih]
    · simp [rerase, rlookup, hak, ih]

theorem rlookup_rerase_ne {β : Type} {k k' : String} (h : k' ≠ k)
    (l : List (String × β)) : rlookup k' (rerase k l) = rlookup k' l := by
  induction l with
  | nil => rfl
  | cons hd t ih =>
    obtain ⟨a, v⟩ := hd
    by_cases hak : a = k
    · subst hak
      simp [rerase, rlookup, Ne.symm h, ih]
    · by_cases hak' : a = k'
      · simp [rerase, rlookup, hak, hak', h]
      · simp [rerase, rlookup, hak, hak', ih]

theorem rlookup_rinsert_self {β : Type} (k : String) (v : β)
    (l : List (String × β)) : rlookup k (rinsert k v l) = some v := by
  simp [rinsert, rlookup]

theorem rlookup_rinsert_ne {β : Type} {k k' : String} (h : k' ≠ k) (v : β)
    (l : List (String × β)) :
    rlookup k' (rinsert k v l) = rlookup k' l := by
  simp [rinsert, rlookup, Ne.symm h, rlookup_rerase_ne h]

theorem rlookup_eq_some_mem {β : Type} {k : String} {l : List (String × β)}
    {v : β} (h : rlookup k l = some v) : (k, v) ∈ l := by
  induction l with
  | nil => simp [rlookup] at h
  | cons hd t ih =>
    obtain ⟨a, w⟩ := hd
    rw [rlookup] at h
    by_cases hak : a = k
    · subst hak
      simp at h
      subst h
      exact List.mem_cons_self _ _
    · simp [hak] at h
      exact List.mem_cons_of_mem _ (ih h)

theorem mapBeq_eq_true_iff (a b : List (String × String)) :
    mapBeq a b = true ↔ ∀ k, rlookup k a = rlookup k b := by
  constructor
  · intro h k
    rw [mapBeq, Bool.and_eq_true] at h
    obtain ⟨ha, hb⟩ := h
    rw [List.all_eq_true] at ha hb
    cases hxa : rlookup k a with
    | some v =>
      have := ha _ (rlookup_eq_some_mem hxa)
      simp at this
      rw [this]
      exact hxa.symm
    | none =>
      cases hxb : rlookup k b with
      | none => rfl
      | some w =>
        have := hb _ (rlookup_eq_some_mem hxb)
        simp at this
        rw [hxa, hxb] at this
        exact this
  · intro h
    rw [mapBeq, Bool.and_eq_true]
    constructor <;> (rw [List.all_eq_true]; intro kv _; simp [h kv.1])

theorem mapBeq_eq_false_of_ne {a b : List (String × String)} {k : String}
    (h : rlookup k a ≠ rlookup k b) : mapBeq a b = false := by
  cases hm : mapBeq a b with
  | false => rfl
  | true => exact absurd ((mapBeq_eq_true_iff a b).mp hm k) h

theorem headTreeOf_set_index (s : GitState) (i : List (String × String)) :
    headTreeOf { s with index := i } = headTreeOf s := rfl

theorem headTreeOf_set_workdir (s : GitState) (w : List (String × String)) :
    headTreeOf { s with workdir := w } = headTreeOf s := rfl

theorem str_ne_append_meta (fp : String) : fp ≠ fp ++ ".meta.json" := by
  intro h
  have hl := congrArg String.length h
  rw [String.length_append] at hl
  have h10 : (".meta.json" : String).length = 10 := by decide
  rw [h10] at hl
  omega

theorem commit_and_push_allOk_workdir (paths : List String) (m a : String)
    (s : GitState) :
    (commit_and_push allOk paths m a s).2.workdir = s.workdir := by
  rw [commit_and_push]
  simp only [allOk, Bool.not_true, Bool.false_eq_true, if_false]
  split <;> rfl

theorem commit_and_push_two_adds (p1 p2 v1 v2 m a : String) (s : GitState)
    (h1 : rlookup p1 s.workdir = some v1)
    (h2 : rlookup p2 s.workdir = some v2)
    (hd : isDirty { s with index := rinsert p2 v2 (rinsert p1 v1 s.index) }
      = true) :
    commit_and_push allOk [p1, p2] m a s =
      (true,
        { workdir := s.workdir
          index := rinsert p2 v2 (rinsert p1 v1 s.index)
          headCommits :=
            ⟨m, a, rinsert p2 v2 (rinsert p1 v1 s.index)⟩ :: s.headCommits
          remoteCommits :=
            ⟨m, a, rinsert p2 v2 (rinsert p1 v1 s.index)⟩ :: s.headCommits }) := by
  have hstage : stage_paths [p1, p2] s
      = rinsert p2 v2 (rinsert p1 v1 s.index) := by
    simp [stage_paths, List.filter, h1, h2]
  rw [commit_and_push]
  simp only [allOk, Bool.not_true, Bool.false_eq_true, if_false, hstage, hd,
    Bool.not_false, if_true]

/-! ## Claim theorems -/

/-- C1: `create_lock(path, user, force)` fails (returns `None`) and leaves
the registry unchanged when a record for the path already exists and
`force` is false; when no record exists, or when `force` is true, it
succeeds and afterwards the record for the path holds the given user.  In
particular the sequence alice creates / bob creates (fails) / admin
creates with `force=true` (succeeds) behaves exactly so. -/
theorem create_lock_spec (st : Registry) (p u : String) (ts : Nat) :
    ((rlookup (lock_key p) st).isSome = true →
      create_lock st p u ts false = (none, st)) ∧
    (rlookup (lock_key p) st = none →
      (create_lock st p u ts false).1 = some (lock_key p) ∧
      rlookup (lock_key p) (create_lock st p u ts false).2
        = some (some ⟨p, u, ts⟩)) ∧
    ((create_lock st p u ts true).1 = some (lock_key p) ∧
      rlookup (lock_key p) (create_lock st p u ts true).2
        = some (some ⟨p, u, ts⟩)) ∧
    ((create_lock [] "1234567.mcam" "alice" 0 false).1.isSome = true ∧
      create_lock (create_lock [] "1234567.mcam" "alice" 0 false).2
        "1234567.mcam" "bob" 1 false
        = (none, (create_lock [] "1234567.mcam" "alice" 0 false).2) ∧
      (create_lock (create_lock [] "1234567.mcam" "alice" 0 false).2
        "1234567.mcam" "admin" 2 true).1.isSome = true ∧
      rlookup (lock_key "1234567.mcam")
        (create_lock (create_lock [] "1234567.mcam" "alice" 0 false).2
          "1234567.mcam" "admin" 2 true).2
        = some (some ⟨"1234567.mcam", "admin", 2⟩)) := by
  refine ⟨?_, ?_, ?_, by decide⟩
  · intro h
    simp [create_lock, h]
  · intro h
    simp [create_lock, h, rlookup_rinsert_self]
  · simp [create_lock, rlookup_rinsert_self]

/-- Witness for C1 at a concrete input. -/
theorem create_lock_spec_witness :
    rlookup (lock_key "1234567.mcam") ([] : Registry) = none ∧
    (create_lock [] "1234567.mcam" "alice" 0 false).1
      = some (lock_key "1234567.mcam") :=
  ⟨by decide,
    ((create_lock_spec [] "1234567.mcam" "alice" 0).2.1 (by decide)).1⟩

/-- C2 (evidence of the code bug): `create_lock` checks `lock_file.exists()`
and then writes with `write_text` (an overwriting write, not an
exclusive create).  In the interleaving where both racers run the
existence check before either write lands, both checks pass, the first
write stores alice's record, and the second (losing) write replaces it
entirely with bob's record — the loser clobbers the winner, and both
callers were told they hold the checkout. -/
theorem create_lock_race_clobbers :
    create_check [] "1234567.mcam" false = true ∧
    create_write [] "1234567.mcam" "alice" 0
      = [(lock_key "1234567.mcam", some ⟨"1234567.mcam", "alice", 0⟩)] ∧
    create_write (create_write [] "1234567.mcam" "alice" 0)
        "1234567.mcam" "bob" 1
      = [(lock_key "1234567.mcam", some ⟨"1234567.mcam", "bob", 1⟩)] := by
  decide

/-- C9: `get_lock_info` returns the stored record when it exists and
parses, `None` when no record exists, and for a record that exists but
fails to parse it returns `None` after deleting the corrupted record, so
an immediately repeated call finds no record. -/
theorem get_lock_info_spec (st : Registry) (p : String) :
    (rlookup (lock_key p) st = none → get_lock_info st p = (none, st)) ∧
    (∀ d, rlookup (lock_key p) st = some (some d) →
      get_lock_info st p = (some d, st)) ∧
    (rlookup (lock_key p) st = some none →
      (get_lock_info st p).1 = none ∧
      rlookup (lock_key p) (get_lock_info st p).2 = none ∧
      get_lock_info (get_lock_info st p).2 p
        = (none, (get_lock_info st p).2)) := by
  refine ⟨?_, ?_, ?_⟩
  · intro h
    simp [get_lock_info, h]
  · intro d h
    simp [get_lock_info, h]
  · intro h
    simp [get_lock_info, h, rlookup_rerase_self]

/-- Witness for C9 at a concrete input: a corrupted record is healed. -/
theorem get_lock_info_spec_witness :
    rlookup (lock_key "1234567.mcam")
        [(lock_key "1234567.mcam", (none : Option LockData))] = some none ∧
    (get_lock_info [(lock_key "1234567.mcam", (none : Option LockData))]
      "1234567.mcam").1 = none ∧
    rlookup (lock_key "1234567.mcam")
      (get_lock_info [(lock_key "1234567.mcam", (none : Option LockData))]
        "1234567.mcam").2 = none :=
  ⟨by decide,
    ((get_lock_info_spec
      [(lock_key "1234567.mcam", (none : Option LockData))]
      "1234567.mcam").2.2 (by decide)).1,
    ((get_lock_info_spec
      [(lock_key "1234567.mcam", (none : Option LockData))]
      "1234567.mcam").2.2 (by decide)).2.1⟩

/-- C10: the filesystem-safe encoding that keys checkout records maps the
distinct logical paths `"1234567.mcam"` and `"1234567_mcam"` to the same
key, so a checkout held on the first makes `create_lock` on the second
fail as already locked, `get_lock_info` on the second returns the first's
record, and `release_lock` on the second deletes the first's checkout. -/
theorem sanitize_collision :
    sanitize "1234567.mcam" = sanitize "1234567_mcam" ∧
    "1234567.mcam" ≠ "1234567_mcam" ∧
    (create_lock (create_lock [] "1234567.mcam" "alice" 0 false).2
      "1234567_mcam" "bob" 1 false).1 = none ∧
    (get_lock_info (create_lock [] "1234567.mcam" "alice" 0 false).2
      "1234567_mcam").1 = some ⟨"1234567.mcam", "alice", 0⟩ ∧
    rlookup (lock_key "1234567.mcam")
      (release_lock (create_lock [] "1234567.mcam" "alice" 0 false).2
        "1234567_mcam") = none := by
  decide

/-- C5: `_increment_revision` is pure; `current` is parsed as MAJOR.MINOR
(defaulting to `(0, 0)` when absent or when `int()` fails on a
component); for `rev_type = "major"` the result is `explicitMajor.0` when
the explicit major is supplied and numeric and `(MAJOR+1).0` otherwise;
for any other kind it is `MAJOR.(MINOR+1)`.  In particular
`("0.0", major, "5") = "5.0"`, `("5.0", minor) = "5.1"` and
`("5.1", major) = "6.0"`. -/
theorem increment_revision_spec (cur k em : String) :
    (isDigitStr em = true →
      increment_revision cur "major" (some em)
        = toString (digitsToNat em.toList) ++ ".0") ∧
    (increment_revision cur "major" none
      = toString ((parse_rev cur).1 + 1) ++ ".0") ∧
    (k ≠ "major" →
      increment_revision cur k none
        = toString (parse_rev cur).1 ++ "."
          ++ toString ((parse_rev cur).2 + 1) ∧
      increment_revision cur k (some em)
        = toString (parse_rev cur).1 ++ "."
          ++ toString ((parse_rev cur).2 + 1)) ∧
    (parse_rev "" = (0, 0) ∧ parse_rev "garbage" = (0, 0) ∧
      parse_rev "x.y" = (0, 0)) ∧
    (increment_revision "0.0" "major" (some "5") = "5.0" ∧
      increment_revision "5.0" "minor" none = "5.1" ∧
      increment_revision "5.1" "major" none = "6.0") := by
  refine ⟨?_, ?_, ?_, by decide, by decide⟩
  · intro h
    simp [increment_revision, h]
  · simp [increment_revision]
  · intro hk
    constructor <;> simp [increment_revision, hk]

/-- Witness for C5 at concrete inputs. -/
theorem increment_revision_spec_witness :
    isDigitStr "5" = true ∧
    increment_revision "0.0" "major" (some "5")
      = toString (digitsToNat "5".toList) ++ ".0" ∧
    ("minor" : String) ≠ "major" ∧
    increment_revision "5.0" "minor" none
      = toString (parse_rev "5.0").1 ++ "."
        ++ toString ((parse_rev "5.0").2 + 1) :=
  ⟨by decide, (increment_revision_spec "0.0" "minor" "5").1 (by decide),
    by decide,
    ((increment_revision_spec "5.0" "minor" "5").2.2.1 (by decide)).1⟩

/-- C7: a present mutex marker is declared stale when its age exceeds the
300-second ceiling or when the recorded pid is not alive on the host, and
it is not stale when fresh and its holder is alive; when the marker names
a dead process, `acquire` force-breaks it and succeeds on the immediate
retry with zero sleep waits — one retry cycle, not the 15s timeout. -/
theorem mutex_stale_recovery (w : World) (m : MarkerInfo)
    (hdead : w.livePids.contains m.pid = false) :
    is_stale_lock w (some m) = true ∧
    acquire_loop w 2 (some m) 0 = some (⟨w.myPid, w.now⟩, 0) ∧
    (∀ m2 : MarkerInfo, w.now - m2.mtime > 300 →
      is_stale_lock w (some m2) = true) ∧
    (∀ m3 : MarkerInfo, w.livePids.contains m3.pid = true →
      w.now - m3.mtime ≤ 300 → is_stale_lock w (some m3) = false) := by
  have hmem : m.pid ∉ w.livePids := by simpa using hdead
  have hstale : is_stale_lock w (some m) = true := by
    simp [is_stale_lock, hmem]
  refine ⟨hstale, ?_, ?_, ?_⟩
  · simp [acquire_loop, hstale]
  · intro m2 h
    simp [is_stale_lock, h]
  · intro m3 h1 h2
    have hm3 : m3.pid ∈ w.livePids := by simpa using h1
    have hage : ¬ (300 : Nat) < w.now - m3.mtime := by omega
    simp [is_stale_lock, hm3, hage]

/-- Witness for C7 at a concrete host state. -/
theorem mutex_stale_recovery_witness :
    ([7] : List Nat).contains 99 = false ∧
    acquire_loop ⟨[7], 10, 42⟩ 2 (some ⟨99, 10⟩) 0 = some (⟨42, 10⟩, 0) :=
  ⟨by decide, (mutex_stale_recovery ⟨[7], 10, 42⟩ ⟨99, 10⟩ (by decide)).2.1⟩

/-- C8: `is_lfs_pointer` returns true exactly when the file exists, its
size is at most the 200-byte threshold, and its (readable) content starts
with the LFS pointer signature; a 4KB ordinary binary file yields false,
a 120-byte file beginning with the signature yields true, and a missing
file yields false — the operation is total, never an exception. -/
theorem is_lfs_pointer_spec :
    (∀ (fs : RepoFs) (p : String),
      is_lfs_pointer fs p = true ↔
        ∃ f t, rlookup p fs.files = some f ∧ f.size ≤ 200 ∧
          f.text = some t ∧ listStarts t.toList lfsSig.toList = true) ∧
    is_lfs_pointer ⟨[("big.bin", ⟨4096, some "MCAMBINARYDATA"⟩)]⟩
      "big.bin" = false ∧
    is_lfs_pointer
      ⟨[("ptr.mcam",
        ⟨120, some "version https://git-lfs.github.com/spec/v1"⟩)]⟩
      "ptr.mcam" = true ∧
    is_lfs_pointer ⟨[]⟩ "missing.mcam" = false := by
  refine ⟨?_, by decide, by decide, by decide⟩
  intro fs p
  constructor
  · intro h
    cases hl : rlookup p fs.files with
    | none => simp [is_lfs_pointer, hl] at h
    | some f =>
      by_cases hs : f.size > 200
      · simp [is_lfs_pointer, hl, hs] at h
      · cases ht : f.text with
        | none => simp [is_lfs_pointer, hl, hs, ht] at h
        | some t =>
          simp [is_lfs_pointer, hl, hs, ht] at h
          exact ⟨f, t, rfl, by omega, ht, h⟩
  · rintro ⟨f, t, hl, hs, ht, hst⟩
    have hs' : ¬ f.size > 200 := by omega
    simp [is_lfs_pointer, hl, hs', ht]
    exact hst

/-- Witness for C8 at a concrete file store. -/
theorem is_lfs_pointer_spec_witness :
    is_lfs_pointer
      ⟨[("ptr.mcam",
        ⟨120, some "version https://git-lfs.github.com/spec/v1"⟩)]⟩
      "ptr.mcam" = true :=
  (is_lfs_pointer_spec.1
      ⟨[("ptr.mcam",
        ⟨120, some "version https://git-lfs.github.com/spec/v1"⟩)]⟩
      "ptr.mcam").mpr
    ⟨⟨120, some "version https://git-lfs.github.com/spec/v1"⟩,
      "version https://git-lfs.github.com/spec/v1",
      by decide, by decide, rfl, by decide⟩

/-- C3: whenever a step of the publish transaction that actually executes
(stage, commit or push) fails, `commit_and_push` resynchronizes the
working copy to the remote's last known-good state (fetch + hard reset:
working tree, index and local history all equal the remote) and returns
`false`; it returns `true` only when every executed step succeeded. -/
theorem commit_and_push_failure (fl : StepFlags) (paths : List String)
    (msg author : String) (s : GitState) :
    (fl.stageOk = false →
      commit_and_push fl paths msg author s
        = (false, pull_latest_changes s)) ∧
    (fl.stageOk = true →
      isDirty { s with index := stage_paths paths s } = true →
      fl.commitOk = false →
      commit_and_push fl paths msg author s
        = (false, pull_latest_changes s)) ∧
    (fl.stageOk = true →
      isDirty { s with index := stage_paths paths s } = true →
      fl.commitOk = true → fl.pushOk = false →
      commit_and_push fl paths msg author s
        = (false, pull_latest_changes s)) ∧
    ((commit_and_push fl paths msg author s).1 = false →
      (commit_and_push fl paths msg author s).2.workdir = remoteTreeOf s ∧
      (commit_and_push fl paths msg author s).2.index = remoteTreeOf s ∧
      (commit_and_push fl paths msg author s).2.headCommits
        = s.remoteCommits) ∧
    ((commit_and_push fl paths msg author s).1 = true →
      fl.stageOk = true ∧
      (isDirty { s with index := stage_paths paths s } = true →
        fl.commitOk = true ∧ fl.pushOk = true)) := by
  obtain ⟨so, co, po⟩ := fl
  cases so <;> cases co <;> cases po <;>
    by_cases hd : isDirty { s with index := stage_paths paths s } = true <;>
    refine ⟨?_, ?_, ?_, ?_, ?_⟩ <;>
    simp_all [commit_and_push, pull_latest_changes]

/-- Witness for C3 at a concrete failing configuration. -/
theorem commit_and_push_failure_witness :
    (StepFlags.mk false true true).stageOk = false ∧
    commit_and_push ⟨false, true, true⟩ [] "m" "a" ⟨[], [], [], []⟩
      = (false, pull_latest_changes ⟨[], [], [], []⟩) :=
  ⟨rfl, (commit_and_push_failure ⟨false, true, true⟩ [] "m" "a"
    ⟨[], [], [], []⟩).1 rfl⟩

/-- Counterexample for C4: with an unrelated untracked file in the working
copy, a `commit_and_push` call whose path list stages nothing (staged
index equals `HEAD`) still creates a commit — an empty commit — because
the `is_dirty(untracked_files=True)` guard sees the untracked file. -/
theorem commit_and_push_empty_commit_cex :
    mapBeq
      (stage_paths []
        (GitState.mk [("u", "x")] [] [⟨"init", "r", []⟩] [⟨"init", "r", []⟩]))
      (headTreeOf
        (GitState.mk [("u", "x")] [] [⟨"init", "r", []⟩] [⟨"init", "r", []⟩]))
      = true ∧
    (commit_and_push allOk [] "m" "a"
      (GitState.mk [("u", "x")] [] [⟨"init", "r", []⟩]
        [⟨"init", "r", []⟩])).1 = true ∧
    (commit_and_push allOk [] "m" "a"
      (GitState.mk [("u", "x")] [] [⟨"init", "r", []⟩]
        [⟨"init", "r", []⟩])).2.headCommits.length = 2 := by
  decide

/-- C4 (amended): when the given paths stage no change and the working
copy is clean (working tree agrees with the staged index), the call
returns success with zero new commits; and a commit is created only when
the repository is dirty after staging — which, beyond staged changes,
includes unstaged modifications and untracked files. -/
theorem commit_and_push_noop (paths : List String) (msg author : String)
    (s : GitState) :
    (mapBeq (stage_paths paths s) (headTreeOf s) = true →
      mapBeq s.workdir (stage_paths paths s) = true →
      commit_and_push allOk paths msg author s
        = (true, { s with index := stage_paths paths s }) ∧
      (commit_and_push allOk paths msg author s).2.headCommits
        = s.headCommits) ∧
    ((commit_and_push allOk paths msg author s).2.headCommits
        ≠ s.headCommits →
      isDirty { s with index := stage_paths paths s } = true) := by
  constructor
  · intro h1 h2
    have hnd : isDirty { s with index := stage_paths paths s } = false := by
      simp [isDirty, headTreeOf_set_index, h1, h2]
    have he : commit_and_push allOk paths msg author s
        = (true, { s with index := stage_paths paths s }) := by
      simp [commit_and_push, allOk, hnd]
    exact ⟨he, by rw [he]⟩
  · intro hne
    by_cases hd : isDirty { s with index := stage_paths paths s } = true
    · exact hd
    · exfalso
      apply hne
      have hd' : isDirty { s with index := stage_paths paths s } = false := by
        simpa using hd
      simp [commit_and_push, allOk, hd']

/-- Witness for the amended C4 at a concrete clean state. -/
theorem commit_and_push_noop_witness :
    mapBeq
      (stage_paths ["f.mcam"]
        (GitState.mk [("f.mcam", "v")] [("f.mcam", "v")]
          [⟨"c", "a", [("f.mcam", "v")]⟩] [⟨"c", "a", [("f.mcam", "v")]⟩]))
      (headTreeOf
        (GitState.mk [("f.mcam", "v")] [("f.mcam", "v")]
          [⟨"c", "a", [("f.mcam", "v")]⟩] [⟨"c", "a", [("f.mcam", "v")]⟩]))
      = true ∧
    (commit_and_push allOk ["f.mcam"] "m" "a"
      (GitState.mk [("f.mcam", "v")] [("f.mcam", "v")]
        [⟨"c", "a", [("f.mcam", "v")]⟩]
        [⟨"c", "a", [("f.mcam", "v")]⟩])).2.headCommits
      = [⟨"c", "a", [("f.mcam", "v")]⟩] :=
  ⟨by decide,
    ((commit_and_push_noop ["f.mcam"] "m" "a"
      (GitState.mk [("f.mcam", "v")] [("f.mcam", "v")]
        [⟨"c", "a", [("f.mcam", "v")]⟩]
        [⟨"c", "a", [("f.mcam", "v")]⟩])).1 (by decide) (by decide)).2⟩

/-- C6: `checkin_file` writes the new content to the path, starts from
empty metadata when no side-car record exists, computes the new revision
via `_increment_revision`, writes the updated metadata, and publishes
both files in a single publish transaction whose commit message is
prefixed by the new revision; with no prior metadata and
`rev_type = "minor"` the resulting revision is `"0.1"`. -/
theorem checkin_minor_fresh (s : GitState) (fp content msg author : String)
    (h1 : rlookup (fp ++ ".meta.json") s.workdir = none)
    (h3 : rlookup (fp ++ ".meta.json") (headTreeOf s) = none) :
    (checkin_file allOk s fp content msg "minor" author none).1 = true ∧
    rlookup fp
      (checkin_file allOk s fp content msg "minor" author none).2.workdir
      = some content ∧
    rlookup (fp ++ ".meta.json")
      (checkin_file allOk s fp content msg "minor" author none).2.workdir
      = some (metaEncode "0.1") ∧
    (∃ c,
      (checkin_file allOk s fp content msg "minor" author none).2.headCommits
        = c :: s.headCommits ∧
      c.message = "REV 0.1: " ++ msg ∧
      rlookup fp c.tree = some content ∧
      rlookup (fp ++ ".meta.json") c.tree = some (metaEncode "0.1")) ∧
    (checkin_file allOk s fp content msg "minor" author none).2.remoteCommits
      = (checkin_file allOk s fp content msg "minor" author
          none).2.headCommits ∧
    (∀ rt nm, rlookup (fp ++ ".meta.json")
        (checkin_file allOk s fp content msg rt author nm).2.workdir
      = some (metaEncode (increment_revision "0.0" rt nm))) := by
  have hne : fp ≠ fp ++ ".meta.json" := str_ne_append_meta fp
  have hne' : fp ++ ".meta.json" ≠ fp := Ne.symm hne
  have hinc : increment_revision "0.0" "minor" none = "0.1" := by decide
  have heval : ∀ rt nm, checkin_file allOk s fp content msg rt author nm
      = commit_and_push allOk [fp, fp ++ ".meta.json"]
          ("REV " ++ increment_revision "0.0" rt nm ++ ": " ++ msg) author
          (GitState.mk
            (rinsert (fp ++ ".meta.json")
              (metaEncode (increment_revision "0.0" rt nm))
              (rinsert fp content s.workdir))
            s.index s.headCommits s.remoteCommits) := by
    intro rt nm
    simp only [checkin_file, save_file]
    rw [rlookup_rinsert_ne hne', h1]
  have hw2 : rlookup fp (rinsert (fp ++ ".meta.json") (metaEncode "0.1")
      (rinsert fp content s.workdir)) = some content := by
    rw [rlookup_rinsert_ne hne, rlookup_rinsert_self]
  have hw3 : rlookup (fp ++ ".meta.json")
      (rinsert (fp ++ ".meta.json") (metaEncode "0.1")
        (rinsert fp content s.workdir)) = some (metaEncode "0.1") :=
    rlookup_rinsert_self _ _ _
  have hi2 : rlookup fp (rinsert (fp ++ ".meta.json") (metaEncode "0.1")
      (rinsert fp content s.index)) = some content := by
    rw [rlookup_rinsert_ne hne, rlookup_rinsert_self]
  have hi3 : rlookup (fp ++ ".meta.json")
      (rinsert (fp ++ ".meta.json") (metaEncode "0.1")
        (rinsert fp content s.index)) = some (metaEncode "0.1") :=
    rlookup_rinsert_self _ _ _
  have hmb : mapBeq (rinsert (fp ++ ".meta.json") (metaEncode "0.1")
      (rinsert fp content s.index)) (headTreeOf s) = false := by
    apply mapBeq_eq_false_of_ne (k := fp ++ ".meta.json")
    rw [rlookup_rinsert_self, h3]
    simp
  have hd : isDirty (GitState.mk
      (rinsert (fp ++ ".meta.json") (metaEncode "0.1")
        (rinsert fp content s.workdir))
      (rinsert (fp ++ ".meta.json") (metaEncode "0.1")
        (rinsert fp content s.index))
      s.headCommits s.remoteCommits) = true := by
    show (!mapBeq (rinsert (fp ++ ".meta.json") (metaEncode "0.1")
        (rinsert fp content s.index)) (headTreeOf s)
      || !mapBeq (rinsert (fp ++ ".meta.json") (metaEncode "0.1")
        (rinsert fp content s.workdir))
          (rinsert (fp ++ ".meta.json") (metaEncode "0.1")
            (rinsert fp content s.index))) = true
    rw [hmb]
    simp
  have hrun := commit_and_push_two_adds fp (fp ++ ".meta.json") content
    (metaEncode "0.1") ("REV " ++ "0.1" ++ ": " ++ msg) author
    (GitState.mk (rinsert (fp ++ ".meta.json") (metaEncode "0.1")
      (rinsert fp content s.workdir)) s.index s.headCommits s.remoteCommits)
    hw2 hw3 hd
  have hmain : checkin_file allOk s fp content msg "minor" author none
      = (true, GitState.mk
          (rinsert (fp ++ ".meta.json") (metaEncode "0.1")
            (rinsert fp content s.workdir))
          (rinsert (fp ++ ".meta.json") (metaEncode "0.1")
            (rinsert fp content s.index))
          (GCommit.mk ("REV " ++ "0.1" ++ ": " ++ msg) author
            (rinsert (fp ++ ".meta.json") (metaEncode "0.1")
              (rinsert fp content s.index)) :: s.headCommits)
          (GCommit.mk ("REV " ++ "0.1" ++ ": " ++ msg) author
            (rinsert (fp ++ ".meta.json") (metaEncode "0.1")
              (rinsert fp content s.index)) :: s.headCommits)) := by
    rw [heval "minor" none, hinc]
    exact hrun
  have hstr : ("REV " ++ "0.1" ++ ": " ++ msg) = "REV 0.1: " ++ msg := by
    rw [show ("REV " ++ "0.1" ++ ": " : String) = "REV 0.1: " from by decide]
  refine ⟨?_, ?_, ?_, ?_, ?_, ?_⟩
  · rw [hmain]
  · rw [hmain]
    exact hw2
  · rw [hmain]
    exact hw3
  · refine ⟨GCommit.mk ("REV " ++ "0.1" ++ ": " ++ msg) author
      (rinsert (fp ++ ".meta.json") (metaEncode "0.1")
        (rinsert fp content s.index)), ?_, ?_, hi2, hi3⟩
    · rw [hmain]
    · exact hstr
  · rw [hmain]
  · intro rt nm
    rw [heval rt nm, commit_and_push_allOk_workdir]
    exact rlookup_rinsert_self _ _ _

/-- Witness for C6 at a concrete (empty) repository state. -/
theorem checkin_minor_fresh_witness :
    rlookup ("1234567.mcam" ++ ".meta.json")
      (GitState.mk [] [] [] []).workdir = none ∧
    (checkin_file allOk ⟨[], [], [], []⟩ "1234567.mcam" "NEWBYTES" "fix"
      "minor" "alice" none).1 = true ∧
    rlookup ("1234567.mcam" ++ ".meta.json")
      (checkin_file allOk ⟨[], [], [], []⟩ "1234567.mcam" "NEWBYTES" "fix"
        "minor" "alice" none).2.workdir = some (metaEncode "0.1") :=
  ⟨rfl,
    (checkin_minor_fresh ⟨[], [], [], []⟩ "1234567.mcam" "NEWBYTES" "fix"
      "alice" rfl rfl).1,
    (checkin_minor_fresh ⟨[], [], [], []⟩ "1234567.mcam" "NEWBYTES" "fix"
      "alice" rfl rfl).2.2.1⟩

end PDM
